import Mathlib

/-!
Verification development for the heritage-weaver catalogue tools
(src/tools/weaving_tools.py): a shallow embedding of the record
normalisation, image fetching, record filtering, CSV persistence and
embedding glue, together with theorems about the specified properties.

Machine strings are modelled as Lean String; Python string operations
(strip, split, replace, lower, startswith) are re-implemented structurally
over character lists so that every definition evaluates by kernel
reduction.  Fallible Python code (direct dict indexing, attribute errors,
uncaught HTTP exceptions) is modelled with Except String.
-/

/-! ## String helpers modelling Python string operations -/

/-- Whitespace test used by the models of Python str.split and str.strip. -/
def wsChar (c : Char) : Bool :=
  c = ' ' || c = '\t' || c = '\n' || c = '\r'

/-- Python str.strip on a character list. -/
def stripChars (l : List Char) : List Char :=
  ((l.dropWhile wsChar).reverse.dropWhile wsChar).reverse

/-- Python str.strip. -/
def pyStrip (s : String) : String := String.mk (stripChars s.data)

/-- Helper for the model of Python str.split with no argument. -/
def splitWsAux : List Char → List Char → List (List Char)
  | [], acc => if acc.isEmpty then [] else [acc.reverse]
  | c :: rest, acc =>
      if wsChar c then
        if acc.isEmpty then splitWsAux rest []
        else acc.reverse :: splitWsAux rest []
      else splitWsAux rest (c :: acc)

/-- Python str.split with no argument: split on whitespace runs, dropping
    empty parts. -/
def pySplit (s : String) : List String :=
  (splitWsAux s.data []).map String.mk

/-- The whitespace-collapse idiom of the source. -/
def collapseWs (s : String) : String :=
  String.intercalate " " (pySplit s)

/-- Python loc.replace of the slash character by the pipe character. -/
def slashToPipe (s : String) : String :=
  String.mk (s.data.map fun c => if c = '/' then '|' else c)

/-- Helper for the model of Python str.split with the pipe separator. -/
def splitPipeAux : List Char → List Char → List (List Char)
  | [], acc => [acc.reverse]
  | c :: rest, acc =>
      if c = '|' then acc.reverse :: splitPipeAux rest []
      else splitPipeAux rest (c :: acc)

/-- Python str.split on the pipe character (keeps empty parts). -/
def pySplitPipe (s : String) : List String :=
  (splitPipeAux s.data []).map String.mk

/-- Python str.startswith for the PF filter of the NMS fetcher. -/
def startsWithPF (s : String) : Bool :=
  match s.data with
  | 'P' :: 'F' :: _ => true
  | _ => false

/-- Python str.lower. -/
def lowerStr (s : String) : String := String.mk (s.data.map Char.toLower)

/-! ## JSON values and Python-style access -/

/-- JSON values of the newline-delimited dump read by load_from_json. -/
inductive Json where
  | null
  | str (s : String)
  | num (n : Int)
  | arr (elems : List Json)
  | obj (fields : List (String × Json))

/-- First binding of a key in an object (Python dict keys are unique). -/
def jsonLookup (key : String) : List (String × Json) → Option Json
  | [] => none
  | (k, v) :: rest => if k = key then some v else jsonLookup key rest

/-- Python direct indexing d[key]: raises on a missing key or a non-dict
    receiver. -/
def pyIndex (v : Json) (key : String) : Except String Json :=
  match v with
  | .obj fields =>
      match jsonLookup key fields with
      | some w => .ok w
      | none => .error ("KeyError: " ++ key)
  | _ => .error "TypeError: not a dict"

/-- Python d.get(key, default): raises only on a non-dict receiver. -/
def pyGet (v : Json) (key : String) (dflt : Json) : Except String Json :=
  match v with
  | .obj fields => .ok ((jsonLookup key fields).getD dflt)
  | _ => .error "AttributeError: get on a non-dict"

/-- Python truthiness of a JSON value. -/
def jsonTruthy : Json → Bool
  | .null => false
  | .str s => s ≠ ""
  | .num n => n ≠ 0
  | .arr l => !l.isEmpty
  | .obj fs => !fs.isEmpty

/-- Expect a string (Python raises when a string method hits a non-string). -/
def asStr (v : Json) : Except String String :=
  match v with
  | .str s => .ok s
  | _ => .error "AttributeError: not a str"

/-- Expect a list (Python raises when iterating a non-list here). -/
def asArr (v : Json) : Except String (List Json) :=
  match v with
  | .arr l => .ok l
  | _ => .error "TypeError: not a list"

/-- Expect a number (the sort key of a taxonomy hierarchy entry). -/
def asInt (v : Json) : Except String Int :=
  match v with
  | .num n => .ok n
  | _ => .error "TypeError: not a number"

/-- Monadic map over a list in Except: the first error aborts, exactly as an
    uncaught Python exception aborts a list comprehension or loop. -/
def mapExcept (f : α → Except String β) : List α → Except String (List β)
  | [] => .ok []
  | x :: rest => do
      let y ← f x
      let ys ← mapExcept f rest
      pure (y :: ys)

/-- True exactly on the ok constructor. -/
def exceptIsOk : Except ε α → Bool
  | .ok _ => true
  | .error _ => false

/-! ## SMG record normalisation (SMGCollection.process_json_record) -/

/-- One element of the list comprehensions at lines 218 and 222 of the
    source: s.get of value with an empty default, stripped. -/
def entryValue (s : Json) : Except String String := do
  let v ← pyGet s "value" (.str "")
  let v ← asStr v
  pure (pyStrip v)

/-- The list comprehension idiom of lines 218 and 222 of the source:
    collect value entries of the given field, with get defaults, stripped. -/
def fieldValues (source : Json) (field : String) : Except String (List String) := do
  let entries ← pyGet source field (.arr [])
  let entries ← asArr entries
  mapExcept entryValue entries

/-- The join with a semicolon separator applied to the collected values. -/
def joinValues (source : Json) (field : String) : Except String String := do
  let vals ← fieldValues source field
  pure (String.intercalate "; " vals)

/-- Insertion step of an insertion sort on sort keys. -/
def insertSorted (p : Int × String) : List (Int × String) → List (Int × String)
  | [] => [p]
  | q :: rest => if p.1 ≤ q.1 then p :: q :: rest else q :: insertSorted p rest

/-- Python sorted(d.items()): ascending by the (unique) keys. -/
def sortPairs (l : List (Int × String)) : List (Int × String) := l.foldr insertSorted []

/-- Python dict insertion: a later binding for an existing key replaces it. -/
def dictInsert (k : Int) (v : String) : List (Int × String) → List (Int × String)
  | [] => [(k, v)]
  | (k0, v0) :: rest => if k0 = k then (k0, v) :: rest else (k0, v0) :: dictInsert k v rest

/-- One entry of the taxonomy dict comprehension: t of sort maps to the
    value of the first name entry. -/
def hierarchyEntry (t : Json) : Except String (Int × String) := do
  let k ← pyIndex t "sort"
  let k ← asInt k
  let nm ← pyIndex t "name"
  let nm ← asArr nm
  match nm with
  | [] => .error "IndexError: name list empty"
  | n0 :: _ => do
      let v ← pyIndex n0 "value"
      let v ← asStr v
      pure (k, v)

/-- The taxonomy block of process_json_record: empty string when terms is
    falsy, else the hierarchy of the first terms entry, mapped from sort
    order to name, serialised in ascending sort order. -/
def taxonomyOf (source : Json) : Except String String := do
  let terms ← pyGet source "terms" .null
  if jsonTruthy terms then
    match terms with
    | .arr (t0 :: _) => do
        let hierarchy ← pyGet t0 "hierarchy" (.arr [])
        let hierarchy ← asArr hierarchy
        let entries ← mapExcept hierarchyEntry hierarchy
        let dict := entries.foldl (fun acc p => dictInsert p.1 p.2 acc) []
        pure (String.intercalate "; " ((sortPairs dict).map (fun p => pyStrip p.2)))
    | _ => .error "TypeError: terms is truthy but not a list"
  else
    pure ""

/-- The multimedia block of process_json_record: location of the medium
    image of the first multimedia entry, the flattened file name, and the
    local path; three empty strings when multimedia is falsy. -/
def multimediaOf (folder : String) (source : Json) : Except String (String × String × String) := do
  let multimedia ← pyGet source "multimedia" .null
  if jsonTruthy multimedia then
    match multimedia with
    | .arr (m0 :: _) => do
        let p ← pyIndex m0 "processed"
        let p ← pyIndex p "medium"
        let p ← pyIndex p "location"
        let loc ← asStr p
        let img_name := slashToPipe loc
        let img_path := folder ++ "/" ++ img_name
        pure (loc, img_name, img_path)
    | _ => .error "TypeError: multimedia is truthy but not a list"
  else
    pure ("", "", "")

/-- One canonical SMG row as returned by process_json_record. -/
structure SMGRow where
  record_id : Json
  names : String
  description : String
  taxonomy : String
  img_loc : String
  img_name : String
  img_path : String
  downloaded : Bool

/-- The fields of a row computed before the downloaded flag. -/
structure SMGParts where
  record_id : Json
  names : String
  description : String
  taxonomy : String
  img_loc : String
  img_name : String
  img_path : String

/-- The body of process_json_record up to the downloaded flag.  The second
    binding of names mirrors line 224 of the source, which rebuilds names
    from the split of description rather than from the name list. -/
def smgParseRecord (folder : String) (record : Json) : Except String SMGParts := do
  let record_id ← pyIndex record "_id"
  let source ← pyIndex record "_source"
  let description ← joinValues source "description"
  let description := collapseWs description
  let names ← joinValues source "name"
  let names := collapseWs description
  let taxonomy ← taxonomyOf source
  let (img_loc, img_name, img_path) ← multimediaOf folder source
  pure { record_id := record_id, names := names, description := description,
         taxonomy := taxonomy, img_loc := img_loc, img_name := img_name,
         img_path := img_path }

/-- SMGCollection.process_json_record: the parsed parts plus the downloaded
    flag, which tests membership of img_path in the set of image paths
    scanned from the cache folder. -/
def process_json_record (folder : String) (images : List String) (record : Json) :
    Except String SMGRow :=
  (smgParseRecord folder record).map fun p =>
    { record_id := p.record_id, names := p.names, description := p.description,
      taxonomy := p.taxonomy, img_loc := p.img_loc, img_name := p.img_name,
      img_path := p.img_path, downloaded := images.contains p.img_path }

/-- The column list passed to the DataFrame constructor in load_from_json
    (line 189 of the source). -/
def smgColumns : List String :=
  ["record_id", "name", "description", "taxonomy", "img_loc", "img_name",
   "img_path", "downloaded"]

/-- The table held by a collection after a load. -/
structure SMGTable where
  columns : List String
  rows : List SMGRow

/-- SMGCollection.load_from_json: process every record of the dump in
    order; an uncaught exception in one record aborts the whole load. -/
def load_from_json (folder : String) (images : List String) (records : List Json) :
    Except String SMGTable :=
  (mapExcept (process_json_record folder images) records).map fun rows =>
    { columns := smgColumns, rows := rows }

/-! ## SMG image fetching (SMGCollection.fetch_images) -/

/-- Outcome of one HTTP GET: a response with a status code and a body, or a
    raised connection error. -/
inductive HttpResp where
  | resp (code : Nat) (content : String)
  | connError
deriving DecidableEq

/-- Writing a file into the cache folder: the set of file paths gains the
    path (writes are idempotent at the set level). -/
def insertFile (p : String) (cache : List String) : List String :=
  if cache.contains p then cache else cache ++ [p]

/-- Line 281 of the source: the img_loc column of the rows whose downloaded
    flag is false and whose img_loc is non-empty, in table order. -/
def smgPendingLocs (df : List SMGRow) : List String :=
  (df.filter fun r => !r.downloaded && r.img_loc != "").map fun r => r.img_loc

/-- State of an SMGCollection relevant to fetching: the table, the actual
    contents of the cache folder, and the scanned image set self.images. -/
structure SMGState where
  df : List SMGRow
  cache : List String
  images : List String

/-- The loop over the chosen locations: each location triggers one GET; a
    200 response writes the body to the flattened path; any other status
    falls through; a connection error is an uncaught exception that aborts
    the remaining iterations.  Returns the cache contents reached together
    with the uncaught exception, when one occurred. -/
def fetch_loop (http : String → HttpResp) (folder : String) :
    List String → List String → List String × Option String
  | [], cache => (cache, none)
  | loc :: rest, cache =>
      match http loc with
      | .connError => (cache, some "ConnectionError")
      | .resp code _ =>
          if code = 200 then
            fetch_loop http folder rest (insertFile (folder ++ "/" ++ slashToPipe loc) cache)
          else
            fetch_loop http folder rest cache

/-- The HTTP GET requests issued on a list of locations: one per location
    until (and including) the first connection error, which aborts. -/
def requests_made (http : String → HttpResp) : List String → List String
  | [] => []
  | loc :: rest =>
      match http loc with
      | .connError => [loc]
      | .resp _ _ => loc :: requests_made http rest

/-- SMGCollection.fetch_images: fetch at most maxImages pending locations,
    then rescan the cache folder into self.images.  The table itself is
    never touched.  When the loop raises, the rescan line is not reached
    and the exception propagates (second component). -/
def fetch_images (http : String → HttpResp) (folder : String) (maxImages : Nat)
    (st : SMGState) : SMGState × Option String :=
  let img_locs := (smgPendingLocs st.df).take maxImages
  match fetch_loop http folder img_locs st.cache with
  | (cache2, none) => ({ df := st.df, cache := cache2, images := cache2 }, none)
  | (cache2, some e) => ({ df := st.df, cache := cache2, images := st.images }, some e)

/-- All rows of the table satisfy the invariant that the downloaded flag
    equals presence of the row image path in the cache folder. -/
def downloadedInvariant (st : SMGState) : Bool :=
  st.df.all fun r => r.downloaded == st.cache.contains r.img_path

/-- Number of rows whose downloaded flag is false. -/
def countFalse (df : List SMGRow) : Nat :=
  (df.filter fun r => !r.downloaded).length

/-! ## BT collection (BTCollection.load_from_xml) -/

/-- One DScribeRecord element: the four child elements may be absent. -/
structure BTXmlRecord where
  refNo : Option String
  title : Option String
  thumbnail : Option String
  description : Option String

/-- The local helper of load_from_xml: the text of a found element, or the
    empty string when the element is absent. -/
def find_and_get_text (x : Option String) : String := x.getD ""

/-- The rename mapping applied to the BT columns (line 342 of the source). -/
def btRename (c : String) : String :=
  if c = "RefNo" then "record_id"
  else if c = "Title" then "names"
  else if c = "Thumbnail" then "img_loc"
  else if c = "Description" then "description"
  else c

/-- The four extracted XML columns, in extraction order. -/
def btXmlColumns : List String := ["RefNo", "Title", "Thumbnail", "Description"]

/-- Columns of the BT table after load_from_xml: the four XML fields plus
    the appended img_path and downloaded columns, renamed. -/
def btColumns : List String := (btXmlColumns ++ ["img_path", "downloaded"]).map btRename

/-- One row of the BT table after load_from_xml. -/
structure BTRow where
  record_id : String
  names : String
  img_loc : String
  description : String
  img_path : String
  downloaded : Bool

/-- The BT table. -/
structure BTTable where
  columns : List String
  rows : List BTRow

/-- BTCollection.load_from_xml: extract the four child texts per record,
    derive img_path from the thumbnail (empty stays empty), and compute
    downloaded by a file-existence check, then rename the columns. -/
def load_from_xml (folder : String) (isFile : String → Bool)
    (records : List BTXmlRecord) : BTTable :=
  { columns := btColumns,
    rows := records.map fun r =>
      let thumb := find_and_get_text r.thumbnail
      let img_path := if thumb ≠ "" then folder ++ "/" ++ thumb else thumb
      { record_id := find_and_get_text r.refNo,
        names := find_and_get_text r.title,
        img_loc := thumb,
        description := find_and_get_text r.description,
        img_path := img_path,
        downloaded := if img_path ≠ "" then isFile img_path else false } }

/-! ## NMS collection -/

/-- The final column projection of NMSCollection.load_original_csvs
    (line 395 of the source), which fixes the output schema. -/
def nmsColumns : List String :=
  ["record_id", "name", "description", "taxonomy", "img_loc", "img_name",
   "img_path", "downloaded"]

/-- The NMS row fields used by its fetcher. -/
structure NMSRow where
  record_id : String
  img_loc : Option String

/-- The identifiers for which NMSCollection.fetch_images issues a GET:
    non-null img_loc values, split on the pipe character, kept only when
    they start with PF, and skipped when the jpg is already in the cache. -/
def nmsRequestedIds (folder : String) (cache : List String) (df : List NMSRow) :
    List String :=
  let imgs_ids := (df.filter fun r => r.img_loc.isSome).map fun r => r.img_loc.getD ""
  let imgs_ids := (imgs_ids.map fun e => (pySplitPipe e).filter startsWithPF).flatten
  imgs_ids.filter fun i => !cache.contains (folder ++ "/" ++ i ++ ".jpg")

/-! ## Canonical CSV persistence (save_csv / load_from_csv) -/

/-- One pandas row: the index-column values inserted by earlier reset_index
    calls, the two fields read by the filter, and the remaining cells. -/
structure PRow where
  idx_cols : List Nat
  downloaded : Bool
  description : Option String
  rest : List String
deriving DecidableEq

/-- A pandas DataFrame: column names (inserted index columns at the
    front), the current index labels, and the rows. -/
structure PTable where
  cols : List String
  index : List Nat
  rows : List PRow
deriving DecidableEq

/-- The data content of a row, ignoring inserted index columns. -/
def PRow.core (r : PRow) : Bool × Option String × List String :=
  (r.downloaded, r.description, r.rest)

/-- The boolean mask of filter_records: downloaded is true and description
    is not null. -/
def keepRow (r : PRow) : Bool := r.downloaded && r.description.isSome

/-- The row update performed by reset_index: the old index label of the row
    becomes the value of the newly inserted leading column. -/
def insIdx (p : Nat × PRow) : PRow := { p.2 with idx_cols := p.1 :: p.2.idx_cols }

/-- pandas reset_index on a default unnamed index: the old index labels are
    inserted as a new leading column named index, or level_0 when a column
    named index already exists; insertion of an already existing name
    raises.  The new index is a range. -/
def reset_index (t : PTable) : Except String PTable :=
  let name := if t.cols.contains "index" then "level_0" else "index"
  if t.cols.contains name then .error "ValueError: cannot insert, already exists"
  else
    let newRows := (t.index.zip t.rows).map insIdx
    .ok { cols := name :: t.cols, index := List.range newRows.length, rows := newRows }

/-- MultiModalCollection.filter_records: keep the rows whose downloaded
    flag is true and whose description is not null, then reset_index. -/
def filter_records (t : PTable) : Except String PTable :=
  let kept := (t.index.zip t.rows).filter fun p => keepRow p.2
  reset_index { cols := t.cols, index := kept.map Prod.fst, rows := kept.map Prod.snd }

/-! ## Embedding glue (MultiModalCollection.embed_clip) -/

/-- A dataset cell: a string, loaded image pixels, or an embedding. -/
inductive CellVal where
  | s (v : String)
  | img (path : String)
  | emb (v : List Int)
deriving DecidableEq

/-- One dataset record as a list of named columns. -/
structure DsRow where
  fields : List (String × CellVal)
deriving DecidableEq

/-- Column access with the empty string as the missing-column default. -/
def getCol (r : DsRow) (c : String) : CellVal :=
  match r.fields.find? (fun p => p.1 = c) with
  | some p => p.2
  | none => .s ""

/-- Setting a column: replace an existing binding or append a new one, as
    a dataset map that returns a dict merges new columns into the record. -/
def setCol (c : String) (v : CellVal) : List (String × CellVal) → List (String × CellVal)
  | [] => [(c, v)]
  | (k, w) :: rest => if k = c then (k, v) :: rest else (k, w) :: setCol c v rest

/-- Column update on a record. -/
def addCol (r : DsRow) (c : String) (v : CellVal) : DsRow := ⟨setCol c v r.fields⟩

/-- The lower_case helper: adds a text column holding the lower-cased
    target column. -/
def lower_case (target_col : String) (r : DsRow) : DsRow :=
  addCol r "text" (match getCol r target_col with | .s v => .s (lowerStr v) | x => x)

/-- The open_image helper: adds an image column holding the pixels loaded
    from the path in the target column. -/
def open_image (target_col : String) (r : DsRow) : DsRow :=
  addCol r "image" (match getCol r target_col with | .s p => .img p | x => x)

/-- extract_clip_embedding: adds a modality-tagged embedding column using
    the encoder. -/
def extract_clip_embedding (encode : CellVal → List Int) (modality : String)
    (r : DsRow) : DsRow :=
  addCol r ("clip_" ++ modality ++ "_embedding") (.emb (encode (getCol r modality)))

/-- State of a MultiModalCollection relevant to embedding: the table, the
    dataset view, and the lazily loaded clip model checkpoint. -/
structure MMCState where
  df : List (List String)
  dataset : List DsRow
  clip_model : Option String
deriving DecidableEq

/-- load_clip_model: record the checkpoint as loaded. -/
def load_clip_model (st : MMCState) (ckpt : String) : MMCState :=
  { st with clip_model := some ckpt }

/-- MultiModalCollection.embed_clip: lazily load the model, then map the
    dataset according to the modality and attach embeddings; a modality
    other than text or image raises before any dataset mutation.  The
    first component is the raised error, when one occurred. -/
def embed_clip (encode : CellVal → List Int) (st : MMCState)
    (target_col modality model_ckpt : String) : Option String × MMCState :=
  let st1 := if st.clip_model.isSome then st else load_clip_model st model_ckpt
  if modality = "text" then
    let st2 := { st1 with dataset := st1.dataset.map (lower_case target_col) }
    (none, { st2 with dataset := st2.dataset.map (extract_clip_embedding encode modality) })
  else if modality = "image" then
    let st2 := { st1 with dataset := st1.dataset.map (open_image target_col) }
    (none, { st2 with dataset := st2.dataset.map (extract_clip_embedding encode modality) })
  else
    (some "Modality has to be either text or image", st1)

/-! ## Spec-side comparison definitions -/

/-- Spec-side definition for comparison, following the words of the spec:
    the names field should be the trimmed value entries of the name list,
    joined with a semicolon separator and whitespace-collapsed. -/
def specNamesOf (record : Json) : Except String String := do
  let source ← pyIndex record "_source"
  let names ← joinValues source "name"
  pure (collapseWs names)

/-- Spec-side definition for comparison: the canonical eight-column schema
    named by the spec. -/
def specCanonicalColumns : List String :=
  ["record_id", "names", "description", "taxonomy", "img_loc", "img_name",
   "img_path", "downloaded"]

/-! ## Concrete inputs used by counterexamples and witnesses -/

/-- A well-formed SMG record whose name list and description differ. -/
def recClock : Json :=
  .obj [("_id", .str "r1"),
        ("_source", .obj
          [("name", .arr [.obj [("value", .str "Clock")]]),
           ("description", .arr [.obj [("value", .str "A clock")]])])]

/-- The names field of an ok row. -/
def okNames : Except String SMGRow → Option String
  | .ok r => some r.names
  | .error _ => none

/-- The ok value of a string computation. -/
def okStr : Except String String → Option String
  | .ok s => some s
  | .error _ => none

/-- The number of columns of a loaded table, zero on an error. -/
def colsLenOfResult : Except String PTable → Nat
  | .ok t => t.cols.length
  | .error _ => 0

/-- A canonical table with one row that survives the filter. -/
def c6Table : PTable :=
  { cols := ["record_id", "names", "description", "taxonomy", "img_loc",
             "img_name", "img_path", "downloaded"],
    index := [0],
    rows := [{ idx_cols := [], downloaded := true, description := some "d",
               rest := [] }] }

/-- A pending SMG row for the location a/b.jpg. -/
def rowPending : SMGRow :=
  { record_id := .str "r1", names := "", description := "", taxonomy := "",
    img_loc := "a/b.jpg", img_name := "a|b.jpg", img_path := "smg_imgs/a|b.jpg",
    downloaded := false }

/-- A collection state with one pending row and an empty cache. -/
def smgStatePending : SMGState := { df := [rowPending], cache := [], images := [] }

/-- An HTTP oracle on which every request succeeds. -/
def httpAll200 : String → HttpResp := fun _ => .resp 200 "bytes"

/-- An HTTP oracle on which every request fails with a 404 status. -/
def httpAll404 : String → HttpResp := fun _ => .resp 404 ""

/-- The row produced by process_json_record on recClock with no cached
    image. -/
def rowClock : SMGRow :=
  { record_id := .str "r1", names := "A clock", description := "A clock",
    taxonomy := "", img_loc := "", img_name := "", img_path := "",
    downloaded := false }

/-- A pending row for a given location. -/
def mkPendingRow (loc : String) : SMGRow :=
  { record_id := .str loc, names := "", description := "", taxonomy := "",
    img_loc := loc, img_name := loc, img_path := "smg_imgs/" ++ loc,
    downloaded := false }

/-- A collection state with five pending rows. -/
def fivePendingState : SMGState :=
  { df := [mkPendingRow "l1", mkPendingRow "l2", mkPendingRow "l3",
           mkPendingRow "l4", mkPendingRow "l5"],
    cache := [], images := [] }

/-- An HTTP oracle raising a connection error on the first location. -/
def httpConnFail : String → HttpResp :=
  fun loc => if loc = "la" then .connError else .resp 200 "x"

/-- A collection state with two pending rows. -/
def twoPendingState : SMGState :=
  { df := [mkPendingRow "la", mkPendingRow "lb"], cache := [], images := [] }

/-- A record whose multimedia entry lacks the processed attribute. -/
def recBadMultimedia : Json :=
  .obj [("_id", .str "r2"), ("_source", .obj [("multimedia", .arr [.obj []])])]

/-- A well-formed description or name entry: a dict whose value attribute,
    when present, is a string. -/
def EntryOk (e : Json) : Prop :=
  ∃ fs, e = Json.obj fs ∧
    (jsonLookup "value" fs = none ∨ ∃ s, jsonLookup "value" fs = some (.str s))

/-- The given list field of the source is absent, or a list of well-formed
    entries. -/
def ListFieldOk (src : List (String × Json)) (field : String) : Prop :=
  jsonLookup field src = none ∨
  ∃ entries, jsonLookup field src = some (.arr entries) ∧ ∀ e ∈ entries, EntryOk e

/-- A well-formed taxonomy hierarchy entry: a dict with a numeric sort key
    and a name list whose first entry carries a string value. -/
def HierEntryOk (t : Json) : Prop :=
  ∃ fs k n0fs nrest v, t = Json.obj fs ∧
    jsonLookup "sort" fs = some (.num k) ∧
    jsonLookup "name" fs = some (.arr (Json.obj n0fs :: nrest)) ∧
    jsonLookup "value" n0fs = some (.str v)

/-- The terms attribute is absent or falsy, or its first entry is a dict
    whose hierarchy, when present, is a list of well-formed entries. -/
def TermsOk (src : List (String × Json)) : Prop :=
  jsonLookup "terms" src = none ∨ jsonLookup "terms" src = some .null ∨
  jsonLookup "terms" src = some (.arr []) ∨
  ∃ t0fs rest, jsonLookup "terms" src = some (.arr (Json.obj t0fs :: rest)) ∧
    (jsonLookup "hierarchy" t0fs = none ∨
     ∃ hs, jsonLookup "hierarchy" t0fs = some (.arr hs) ∧ ∀ e ∈ hs, HierEntryOk e)

/-- The multimedia attribute is absent or falsy, or its first entry carries
    the processed.medium.location chain ending in a string. -/
def MultimediaOk (src : List (String × Json)) : Prop :=
  jsonLookup "multimedia" src = none ∨ jsonLookup "multimedia" src = some .null ∨
  jsonLookup "multimedia" src = some (.arr []) ∨
  ∃ m0fs rest pfs mfs loc,
    jsonLookup "multimedia" src = some (.arr (Json.obj m0fs :: rest)) ∧
    jsonLookup "processed" m0fs = some (.obj pfs) ∧
    jsonLookup "medium" pfs = some (.obj mfs) ∧
    jsonLookup "location" mfs = some (.str loc)

/-- A record with the required id and source dict, whose four optional
    attributes are each absent or well-formed.  This covers every per-field
    missing case: any subset of the four may be absent. -/
def RecordOk (r : Json) : Prop :=
  ∃ fields idv src, r = Json.obj fields ∧
    jsonLookup "_id" fields = some idv ∧
    jsonLookup "_source" fields = some (Json.obj src) ∧
    ListFieldOk src "description" ∧ ListFieldOk src "name" ∧
    TermsOk src ∧ MultimediaOk src

/-- Graceful degradation of one normalized row against its raw record:
    each absent optional attribute yields the empty string in the
    corresponding normalized fields (names always equals the collapsed
    description because of the overwrite at line 224, so a missing
    description empties names as well). -/
def GracefulRow (r : Json) (row : SMGRow) : Prop :=
  ∀ fields src, r = Json.obj fields →
    jsonLookup "_source" fields = some (Json.obj src) →
    row.names = collapseWs row.description ∧
    (jsonLookup "description" src = none → row.description = "" ∧ row.names = "") ∧
    (jsonLookup "terms" src = none → row.taxonomy = "") ∧
    (jsonLookup "multimedia" src = none →
      row.img_loc = "" ∧ row.img_name = "" ∧ row.img_path = "")

/-- A record whose source carries a well-formed description, name and
    terms, with only the multimedia attribute missing. -/
def recNoMultimedia : Json :=
  .obj [("_id", .str "rA"),
        ("_source", .obj
          [("description", .arr [.obj [("value", .str " A clock ")]]),
           ("name", .arr [.obj [("value", .str "Clock")]]),
           ("terms", .arr [.obj [("hierarchy",
              .arr [.obj [("sort", .num 1),
                          ("name", .arr [.obj [("value", .str "Horology")]])]])]])])]

/-- A record holding only an id and an empty source dict. -/
def recOnlyId : Json := .obj [("_id", .str "r9"), ("_source", .obj [])]

/-! ## C1: the names field of the SMG normalizer -/

/-- C1: for the record recClock, whose name list holds Clock and whose
    description holds A clock, process_json_record returns names equal to
    the collapsed description (A clock) instead of the transformation of
    the name list mandated by the spec (Clock): line 224 of the source
    rebuilds names from description, contradicting the docstring of
    process_json_record. -/
theorem c1_names_field_is_description :
    okNames (process_json_record "smg_imgs" [] recClock) = some "A clock" ∧
    okStr (specNamesOf recClock) = some "Clock" ∧
    okNames (process_json_record "smg_imgs" [] recClock) ≠ okStr (specNamesOf recClock) :=
  ⟨by decide, by decide, by decide⟩

/-! ## C4: the schemas of the three normalizer variants -/

/-- C4 counterexample: the three loader schemas are not all equal to the
    canonical eight columns named by the spec; the SMG and NMS loaders use
    the column name name rather than names, and the BT loader produces only
    six columns. -/
theorem c4_schemas_not_canonical :
    ¬ (smgColumns = specCanonicalColumns ∧ btColumns = specCanonicalColumns ∧
       nmsColumns = specCanonicalColumns) := by decide

/-- C4 amended: the SMG and NMS loaders both produce the eight columns
    record_id, name, description, taxonomy, img_loc, img_name, img_path,
    downloaded (with name in place of names), and the BT loader produces
    the six columns record_id, names, img_loc, description, img_path,
    downloaded, lacking taxonomy and img_name; any table returned by
    load_from_json or load_from_xml carries exactly these columns. -/
theorem c4_actual_schemas (folder : String) (images : List String)
    (records : List Json) (t : SMGTable)
    (hload : load_from_json folder images records = .ok t)
    (isFile : String → Bool) (xs : List BTXmlRecord) :
    t.columns = ["record_id", "name", "description", "taxonomy", "img_loc",
                 "img_name", "img_path", "downloaded"] ∧
    (load_from_xml folder isFile xs).columns =
      ["record_id", "names", "img_loc", "description", "img_path", "downloaded"] ∧
    nmsColumns = ["record_id", "name", "description", "taxonomy", "img_loc",
                  "img_name", "img_path", "downloaded"] := by
  refine ⟨?_, rfl, by decide⟩
  unfold load_from_json at hload
  cases hmap : mapExcept (process_json_record folder images) records with
  | ok rows => rw [hmap] at hload; cases hload; rfl
  | error e => rw [hmap] at hload; cases hload

/-- C4 witness: the amended schema statement at a concrete load. -/
theorem c4_actual_schemas_witness :
    ∃ t, load_from_json "smg_imgs" [] [recClock] = .ok t ∧
      t.columns = ["record_id", "name", "description", "taxonomy", "img_loc",
                   "img_name", "img_path", "downloaded"] ∧
      (load_from_xml "imgs" (fun _ => false) []).columns =
        ["record_id", "names", "img_loc", "description", "img_path", "downloaded"] := by
  have hload : load_from_json "smg_imgs" [] [recClock] =
      .ok { columns := smgColumns,
            rows := [{ record_id := .str "r1", names := "A clock",
                       description := "A clock", taxonomy := "", img_loc := "",
                       img_name := "", img_path := "", downloaded := false }] } := rfl
  have h := c4_actual_schemas "smg_imgs" [] [recClock] _ hload (fun _ => false) []
  exact ⟨_, hload, h.1, h.2.1⟩

/-! ## C5: invalid modality in embed_clip -/

/-- C5: calling embed_clip with a modality other than text or image raises
    a usage error immediately (the first component carries the error) and
    leaves both the table and the dataset view unmodified. -/
theorem c5_invalid_modality_raises (encode : CellVal → List Int) (st : MMCState)
    (target_col modality model_ckpt : String)
    (h1 : modality ≠ "text") (h2 : modality ≠ "image") :
    (embed_clip encode st target_col modality model_ckpt).1.isSome = true ∧
    (embed_clip encode st target_col modality model_ckpt).2.df = st.df ∧
    (embed_clip encode st target_col modality model_ckpt).2.dataset = st.dataset := by
  unfold embed_clip
  rw [if_neg h1, if_neg h2]
  refine ⟨rfl, ?_, ?_⟩ <;> · split <;> rfl

/-- C5 witness: the audio modality raises and changes nothing. -/
theorem c5_invalid_modality_raises_witness :
    (embed_clip (fun _ => []) ⟨[["a"]], [⟨[("description", .s "D")]⟩], none⟩
        "description" "audio" "clip-ViT-B-32").1.isSome = true ∧
    (embed_clip (fun _ => []) ⟨[["a"]], [⟨[("description", .s "D")]⟩], none⟩
        "description" "audio" "clip-ViT-B-32").2.df = [["a"]] ∧
    (embed_clip (fun _ => []) ⟨[["a"]], [⟨[("description", .s "D")]⟩], none⟩
        "description" "audio" "clip-ViT-B-32").2.dataset = [⟨[("description", .s "D")]⟩] :=
  c5_invalid_modality_raises (fun _ => []) ⟨[["a"]], [⟨[("description", .s "D")]⟩], none⟩
    "description" "audio" "clip-ViT-B-32" (by decide) (by decide)

/-! ## C10: the NMS fetcher requests only PF identifiers -/

/-- C10: every identifier for which the NMS fetcher issues an HTTP request
    starts with PF; a pipe-separated identifier of an img_loc value that
    does not start with PF is never requested, whatever the cache holds. -/
theorem c10_only_pf_requested (folder : String) (cache : List String)
    (df : List NMSRow) (i : String)
    (h : i ∈ nmsRequestedIds folder cache df) : startsWithPF i = true := by
  unfold nmsRequestedIds at h
  have h1 := (List.mem_filter.mp h).1
  rcases List.mem_flatten.mp h1 with ⟨l, hl, hil⟩
  rcases List.mem_map.mp hl with ⟨e, _, rfl⟩
  exact (List.mem_filter.mp hil).2

/-- C10 witness: a mixed img_loc value where the PF identifier is indeed
    requested, and the theorem applies to it. -/
theorem c10_only_pf_requested_witness :
    ("PF1" ∈ nmsRequestedIds "nms_imgs" [] [⟨"n1", some "PF1|x2"⟩]) ∧
    startsWithPF "PF1" = true :=
  ⟨by decide, c10_only_pf_requested "nms_imgs" [] [⟨"n1", some "PF1|x2"⟩] "PF1" (by decide)⟩

/-! ## C9: CSV round-trip -/

/-- Helper: bind on an ok value reduces to the continuation. -/
theorem ebind_ok {ε α β : Type} (a : α) (f : α → Except ε β) :
    (Except.ok a : Except ε α) >>= f = f a := rfl

/-- Helper: map on an ok value applies the function. -/
theorem emap_ok {ε α β : Type} (f : α → β) (a : α) :
    Except.map f (Except.ok a : Except ε α) = .ok (f a) := rfl

/-- Helper: a map whose function fixes every member is the identity. -/
theorem listMapSelf (f : α → α) : ∀ (l : List α), (∀ x ∈ l, f x = x) → l.map f = l
  | [], _ => rfl
  | x :: rest, h => by
    rw [List.map_cons, h x (List.mem_cons_self x rest),
        listMapSelf f rest (fun y hy => h y (List.mem_cons_of_mem x hy))]

/-- C6 counterexample: applying filter_records twice to a canonical table
    does not yield the same table as applying it once; each application
    inserts the old index as a new leading column (index, then level_0), so
    the column lists differ. -/
theorem c6_not_idempotent :
    (filter_records c6Table).bind filter_records ≠ filter_records c6Table :=
  fun h => absurd (congrArg colsLenOfResult h) (by decide)

/-- Helper: the zip of the two projections of a list of pairs is the list. -/
theorem zipFstSnd {α β : Type} (l : List (α × β)) :
    (l.map Prod.fst).zip (l.map Prod.snd) = l := by
  rw [List.zip_map']
  exact listMapSelf _ l (fun p _ => rfl)

/-- C6 amended: on a table whose columns do not yet contain the inserted
    names, applying filter_records twice keeps exactly the rows kept by one
    application, with identical data content, but the second application
    prepends one more index column (level_0 on top of index), so the
    resulting tables are different while the surviving records agree. -/
theorem c6_filter_inserts_index_column (t : PTable)
    (hI : t.cols.contains "index" = false)
    (hL : t.cols.contains "level_0" = false) :
    ∃ t1 t2, filter_records t = .ok t1 ∧ filter_records t1 = .ok t2 ∧
      t2.cols = "level_0" :: t1.cols ∧
      t2.rows.map PRow.core = t1.rows.map PRow.core := by
  have hall : ∀ r ∈ ((t.index.zip t.rows).filter fun p => keepRow p.2).map insIdx,
      keepRow r = true := by
    intro r hr
    rcases List.mem_map.mp hr with ⟨p, hp, rfl⟩
    exact (List.mem_filter.mp hp).2
  have hfilter : ∀ (idx : List Nat),
      ((idx.zip (((t.index.zip t.rows).filter fun p => keepRow p.2).map insIdx)).filter
        fun p => keepRow p.2) =
      idx.zip (((t.index.zip t.rows).filter fun p => keepRow p.2).map insIdx) := by
    intro idx
    apply List.filter_eq_self.mpr
    rintro ⟨i, r⟩ hp
    exact hall r (List.of_mem_zip hp).2
  refine ⟨⟨"index" :: t.cols,
           List.range ((((t.index.zip t.rows).filter fun p => keepRow p.2).map insIdx).length),
           ((t.index.zip t.rows).filter fun p => keepRow p.2).map insIdx⟩,
          ⟨"level_0" :: "index" :: t.cols,
           List.range (((((List.range
              ((((t.index.zip t.rows).filter fun p => keepRow p.2).map insIdx).length)).zip
              (((t.index.zip t.rows).filter fun p => keepRow p.2).map insIdx)).map insIdx)).length),
           (((List.range
              ((((t.index.zip t.rows).filter fun p => keepRow p.2).map insIdx).length)).zip
              (((t.index.zip t.rows).filter fun p => keepRow p.2).map insIdx)).map insIdx)⟩,
          ?_, ?_, rfl, ?_⟩
  · unfold filter_records reset_index
    dsimp only
    simp only [hI, Bool.false_eq_true, if_false, zipFstSnd]
  · unfold filter_records reset_index
    dsimp only
    rw [hfilter, zipFstSnd]
    simp only [List.contains_cons, BEq.refl, Bool.true_or, if_true, hL,
      (show (("level_0" : String) == "index") = false from rfl), Bool.false_or,
      Bool.or_false, Bool.false_eq_true, if_false]
  · rw [List.map_map, List.map_map]
    have hsnd : (((List.range
        ((((t.index.zip t.rows).filter fun p => keepRow p.2).map insIdx).length)).zip
        (((t.index.zip t.rows).filter fun p => keepRow p.2).map insIdx)).map Prod.snd) =
        ((t.index.zip t.rows).filter fun p => keepRow p.2).map insIdx :=
      List.map_snd_zip _ _ (by simp)
    calc ((List.range
            ((((t.index.zip t.rows).filter fun p => keepRow p.2).map insIdx).length)).zip
            (((t.index.zip t.rows).filter fun p => keepRow p.2).map insIdx)).map
            (PRow.core ∘ insIdx)
        = (((List.range
            ((((t.index.zip t.rows).filter fun p => keepRow p.2).map insIdx).length)).zip
            (((t.index.zip t.rows).filter fun p => keepRow p.2).map insIdx)).map Prod.snd).map
            PRow.core := by rw [List.map_map]; rfl
      _ = (((t.index.zip t.rows).filter fun p => keepRow p.2).map insIdx).map PRow.core := by
            rw [hsnd]
      _ = ((t.index.zip t.rows).filter fun p => keepRow p.2).map (PRow.core ∘ insIdx) := by
            rw [List.map_map]

/-- C6 witness: the amended statement at the concrete canonical table. -/
theorem c6_filter_inserts_index_column_witness :
    ∃ t1 t2, filter_records c6Table = .ok t1 ∧ filter_records t1 = .ok t2 ∧
      t2.cols = "level_0" :: t1.cols ∧
      t2.rows.map PRow.core = t1.rows.map PRow.core :=
  c6_filter_inserts_index_column c6Table (by decide) (by decide)

/-- fetch_images never touches the table: the dataframe is unchanged in
    every case, success or not. -/
theorem fetch_images_df_eq (http : String → HttpResp) (folder : String)
    (maxImages : Nat) (st : SMGState) :
    (fetch_images http folder maxImages st).1.df = st.df := by
  unfold fetch_images
  rcases h : fetch_loop http folder ((smgPendingLocs st.df).take maxImages) st.cache
    with ⟨c2, o⟩
  cases o <;> simp [h]

/-- When no request returns a 200 status, the fetch loop writes nothing. -/
theorem fetch_loop_no200 (http : String → HttpResp) (folder : String)
    (h : ∀ loc c, http loc ≠ .resp 200 c) :
    ∀ (locs cache : List String), (fetch_loop http folder locs cache).1 = cache
  | [], _ => rfl
  | loc :: rest, cache => by
    unfold fetch_loop
    cases hl : http loc with
    | connError => rfl
    | resp code content =>
      have hc : ¬ code = 200 := fun hc => h loc content (by rw [← hc]; exact hl)
      dsimp only
      rw [if_neg hc]
      exact fetch_loop_no200 http folder h rest cache

/-- When no request returns a 200 status, fetch_images leaves the cache
    folder contents unchanged. -/
theorem fetch_images_cache_no200 (http : String → HttpResp) (folder : String)
    (maxImages : Nat) (st : SMGState) (h : ∀ loc c, http loc ≠ .resp 200 c) :
    (fetch_images http folder maxImages st).1.cache = st.cache := by
  unfold fetch_images
  rcases hl : fetch_loop http folder ((smgPendingLocs st.df).take maxImages) st.cache
    with ⟨c2, o⟩
  have hc : c2 = st.cache := by
    have := fetch_loop_no200 http folder h ((smgPendingLocs st.df).take maxImages) st.cache
    rw [hl] at this
    exact this
  cases o <;> simp [hl, hc]

/-- When no request raises a connection error, every chosen location is
    requested. -/
theorem requests_made_no_conn (http : String → HttpResp)
    (h : ∀ loc, http loc ≠ .connError) :
    ∀ (locs : List String), requests_made http locs = locs
  | [] => rfl
  | loc :: rest => by
    unfold requests_made
    cases hl : http loc with
    | connError => exact absurd hl (h loc)
    | resp code content => rw [requests_made_no_conn http h rest]

/-! ## C3: the downloaded flag against the cache -/

/-- C3 counterexample: after a fetch batch with one success the image file
    is in the cache at the img_path of the row, yet the downloaded flag of
    the row is still false: fetch_images rescans self.images but never
    re-establishes the downloaded column, so the iff between the flag and
    file existence does not hold after a fetch batch. -/
theorem c3_flag_not_reestablished :
    downloadedInvariant (fetch_images httpAll200 "smg_imgs" 100 smgStatePending).1 = false ∧
    (fetch_images httpAll200 "smg_imgs" 100 smgStatePending).1.cache.contains
      "smg_imgs/a|b.jpg" = true := by decide

/-- C3 amended: the downloaded flag is set at load time as membership of
    img_path in the image set scanned from the cache; fetch_images leaves
    the downloaded column untouched in every case (the flags are only
    recomputed at the next load), and a fetch batch with no successful
    request leaves the cache contents unchanged as well. -/
theorem c3_downloaded_flag_semantics (fld folder : String) (images : List String)
    (rec : Json) (row : SMGRow) (http : String → HttpResp) (maxImages : Nat)
    (st : SMGState) :
    (process_json_record fld images rec = .ok row →
      row.downloaded = images.contains row.img_path) ∧
    (fetch_images http folder maxImages st).1.df = st.df ∧
    ((∀ loc c, http loc ≠ .resp 200 c) →
      (fetch_images http folder maxImages st).1.cache = st.cache) := by
  refine ⟨?_, fetch_images_df_eq http folder maxImages st,
          fun h => fetch_images_cache_no200 http folder maxImages st h⟩
  intro h
  unfold process_json_record at h
  cases hp : smgParseRecord fld rec with
  | error e => rw [hp] at h; exact absurd h (by simp [Except.map])
  | ok p =>
    rw [hp] at h
    simp only [Except.map, Except.ok.injEq] at h
    rw [← h]

/-- C3 witness: the amended statement at a concrete state and oracle. -/
theorem c3_downloaded_flag_semantics_witness :
    rowClock.downloaded = List.contains [] rowClock.img_path ∧
    (fetch_images httpAll404 "smg_imgs" 100 smgStatePending).1.df = smgStatePending.df ∧
    (fetch_images httpAll404 "smg_imgs" 100 smgStatePending).1.cache = smgStatePending.cache := by
  have h := c3_downloaded_flag_semantics "smg_imgs" "smg_imgs" [] recClock rowClock
    httpAll404 100 smgStatePending
  exact ⟨h.1 rfl, h.2.1,
         h.2.2 (fun loc c hl => by simp [httpAll404] at hl)⟩

/-! ## C7: bounded fetch over five pending images -/

/-- C7 counterexample: fetching with a bound of 2 against five pending
    images performs exactly 2 requests, but all five rows still carry
    downloaded equal to false afterwards, not three, because fetch_images
    never updates the downloaded column. -/
theorem c7_five_not_three :
    (requests_made httpAll200 ((smgPendingLocs fivePendingState.df).take 2)).length = 2 ∧
    countFalse (fetch_images httpAll200 "smg_imgs" 2 fivePendingState).1.df = 5 ∧
    countFalse (fetch_images httpAll200 "smg_imgs" 2 fivePendingState).1.df ≠ 3 := by decide

/-- C7 amended: with a batch bound of 2 against five pending images and no
    connection error, exactly 2 HTTP GET requests are performed; the table
    is left unchanged, so all five rows keep downloaded equal to false
    until the flags are recomputed at the next load. -/
theorem c7_bounded_fetch (http : String → HttpResp) (folder : String) (st : SMGState)
    (h5 : (smgPendingLocs st.df).length = 5)
    (hnc : ∀ loc, http loc ≠ .connError) :
    (requests_made http ((smgPendingLocs st.df).take 2)).length = 2 ∧
    (fetch_images http folder 2 st).1.df = st.df ∧
    countFalse (fetch_images http folder 2 st).1.df = countFalse st.df := by
  refine ⟨?_, fetch_images_df_eq http folder 2 st, by rw [fetch_images_df_eq]⟩
  rw [requests_made_no_conn http hnc, List.length_take, h5]
  decide

/-- C7 witness: the amended statement at the concrete five-row state. -/
theorem c7_bounded_fetch_witness :
    (requests_made httpAll200 ((smgPendingLocs fivePendingState.df).take 2)).length = 2 ∧
    (fetch_images httpAll200 "smg_imgs" 2 fivePendingState).1.df = fivePendingState.df ∧
    countFalse (fetch_images httpAll200 "smg_imgs" 2 fivePendingState).1.df =
      countFalse fivePendingState.df :=
  c7_bounded_fetch httpAll200 "smg_imgs" fivePendingState (by decide)
    (fun loc hl => HttpResp.noConfusion hl)

/-! ## C8: non-200 responses versus connection failures -/

/-- C8 counterexample: a connection failure on the first of two pending
    images is not recovered: the exception surfaces out of fetch_images and
    the second image is never requested, so the rest of the batch does not
    proceed. -/
theorem c8_conn_error_aborts :
    (fetch_images httpConnFail "smg_imgs" 100 twoPendingState).2 = some "ConnectionError" ∧
    requests_made httpConnFail ((smgPendingLocs twoPendingState.df).take 100) = ["la"] := by
  decide

/-- C8 amended: on a non-200 HTTP status the single record is skipped with
    no retry and no error: the fetch loop writes no file for it and
    continues with the rest of the batch exactly as if the record were not
    there, and the downloaded flag of the record stays false since the
    table is never modified; a raised connection error, by contrast, is
    not caught and aborts the batch. -/
theorem c8_non200_skips (http : String → HttpResp) (folder loc : String)
    (rest cache : List String) (code : Nat) (content : String)
    (hr : http loc = .resp code content) (h200 : code ≠ 200) :
    fetch_loop http folder (loc :: rest) cache = fetch_loop http folder rest cache ∧
    ∀ (maxImages : Nat) (st : SMGState),
      (fetch_images http folder maxImages st).1.df = st.df := by
  refine ⟨?_, fun maxImages st => fetch_images_df_eq http folder maxImages st⟩
  conv_lhs => rw [fetch_loop]
  rw [hr]
  dsimp only
  rw [if_neg h200]

/-- C8 witness: the amended statement at a concrete 404 response. -/
theorem c8_non200_skips_witness :
    fetch_loop httpAll404 "smg_imgs" ["la", "lb"] [] =
      fetch_loop httpAll404 "smg_imgs" ["lb"] [] ∧
    (fetch_images httpAll404 "smg_imgs" 100 twoPendingState).1.df = twoPendingState.df := by
  have h := c8_non200_skips httpAll404 "smg_imgs" "la" ["lb"] [] 404 ""
    rfl (by decide)
  exact ⟨h.1, h.2 100 twoPendingState⟩

/-! ## C2: missing optional fields versus malformed fields -/

/-- C2 counterexample: a batch of one well-formed record and one record
    with a malformed multimedia entry does not succeed: the uncaught key
    error on the malformed record aborts the whole load, even though the
    well-formed record alone loads fine. -/
theorem c2_malformed_aborts_batch :
    exceptIsOk (load_from_json "smg_imgs" [] [recClock, recBadMultimedia]) = false ∧
    exceptIsOk (load_from_json "smg_imgs" [] [recClock]) = true := by decide

/-- Helper: a pointwise ok map with a pointwise property lifts through
    mapExcept, giving one output per input. -/
theorem mapExceptAll {α β : Type} (f : α → Except String β) (P : β → Prop) :
    ∀ (l : List α), (∀ x ∈ l, ∃ y, f x = .ok y ∧ P y) →
      ∃ ys, mapExcept f l = .ok ys ∧ ys.length = l.length ∧ ∀ y ∈ ys, P y
  | [], _ => ⟨[], rfl, rfl, by simp⟩
  | x :: rest, h => by
    rcases h x (List.mem_cons_self x rest) with ⟨y, hy, hP⟩
    rcases mapExceptAll f P rest (fun z hz => h z (List.mem_cons_of_mem x hz))
      with ⟨ys, hys, hlen, hall⟩
    refine ⟨y :: ys, ?_, by simp [hlen], ?_⟩
    · unfold mapExcept
      rw [hy, ebind_ok, hys, ebind_ok]
      rfl
    · intro z hz
      rcases List.mem_cons.mp hz with h1 | h2
      · exact h1 ▸ hP
      · exact hall z h2

/-- Helper: a pointwise ok map with a pointwise relation to the inputs
    lifts through mapExcept. -/
theorem mapExceptRel {α β : Type} (f : α → Except String β) (R : α → β → Prop) :
    ∀ (l : List α), (∀ x ∈ l, ∃ y, f x = .ok y ∧ R x y) →
      ∃ ys, mapExcept f l = .ok ys ∧ List.Forall₂ R l ys
  | [], _ => ⟨[], rfl, List.Forall₂.nil⟩
  | x :: rest, h => by
    rcases h x (List.mem_cons_self x rest) with ⟨y, hy, hR⟩
    rcases mapExceptRel f R rest (fun z hz => h z (List.mem_cons_of_mem x hz))
      with ⟨ys, hys, hall⟩
    refine ⟨y :: ys, ?_, List.Forall₂.cons hR hall⟩
    unfold mapExcept
    rw [hy, ebind_ok, hys, ebind_ok]
    rfl

/-- Helper: a well-formed entry yields a value (possibly the default). -/
theorem entryValue_ok (e : Json) (h : EntryOk e) :
    ∃ v, entryValue e = .ok v := by
  rcases h with ⟨fs, rfl, hnone | ⟨s, hsome⟩⟩
  · exact ⟨pyStrip "", by unfold entryValue pyGet; dsimp only; rw [hnone]; rfl⟩
  · exact ⟨pyStrip s, by unfold entryValue pyGet; dsimp only; rw [hsome]; rfl⟩

/-- Helper: on an absent or well-formed list field, fieldValues succeeds,
    with the empty list when the field is absent. -/
theorem fieldValues_ok (src : List (String × Json)) (field : String)
    (h : ListFieldOk src field) :
    ∃ vals, fieldValues (Json.obj src) field = .ok vals ∧
      (jsonLookup field src = none → vals = []) := by
  rcases h with hnone | ⟨entries, hsome, hall⟩
  · refine ⟨[], ?_, fun _ => rfl⟩
    unfold fieldValues pyGet; dsimp only; rw [hnone]; rfl
  · rcases mapExceptAll entryValue (fun _ => True) entries
        (fun e he => by rcases entryValue_ok e (hall e he) with ⟨v, hv⟩;
                        exact ⟨v, hv, trivial⟩)
      with ⟨vals, hmap, _, _⟩
    have eget : pyGet (Json.obj src) field (.arr []) = .ok (.arr entries) := by
      unfold pyGet; dsimp only; rw [hsome]; rfl
    refine ⟨vals, ?_, fun hn => Option.noConfusion (hn.symm.trans hsome)⟩
    unfold fieldValues
    rw [eget, ebind_ok, (show asArr (Json.arr entries) = .ok entries from rfl),
        ebind_ok]
    exact hmap

/-- Helper: joinValues on an absent or well-formed list field, with the
    empty string when the field is absent. -/
theorem joinValues_ok (src : List (String × Json)) (field : String)
    (h : ListFieldOk src field) :
    ∃ s, joinValues (Json.obj src) field = .ok s ∧
      (jsonLookup field src = none → s = "") := by
  rcases fieldValues_ok src field h with ⟨vals, hv, hnone⟩
  refine ⟨String.intercalate "; " vals, ?_, fun hn => by rw [hnone hn]; rfl⟩
  unfold joinValues
  rw [hv, ebind_ok]
  rfl

/-- Helper: a well-formed hierarchy entry parses to a sort and name pair. -/
theorem hierarchyEntry_ok (t : Json) (h : HierEntryOk t) :
    ∃ kv, hierarchyEntry t = .ok kv := by
  rcases h with ⟨fs, k, n0fs, nrest, v, rfl, hs, hn, hv⟩
  refine ⟨(k, v), ?_⟩
  have es : pyIndex (Json.obj fs) "sort" = .ok (.num k) := by
    unfold pyIndex; dsimp only; rw [hs]
  have en : pyIndex (Json.obj fs) "name" = .ok (.arr (Json.obj n0fs :: nrest)) := by
    unfold pyIndex; dsimp only; rw [hn]
  have ev : pyIndex (Json.obj n0fs) "value" = .ok (.str v) := by
    unfold pyIndex; dsimp only; rw [hv]
  unfold hierarchyEntry
  rw [es, ebind_ok, (show asInt (Json.num k) = .ok k from rfl), ebind_ok,
      en, ebind_ok,
      (show asArr (Json.arr (Json.obj n0fs :: nrest)) =
        .ok (Json.obj n0fs :: nrest) from rfl), ebind_ok]
  dsimp only
  rw [ev, ebind_ok, (show asStr (Json.str v) = .ok v from rfl), ebind_ok]
  rfl

/-- Helper: on an absent, falsy or well-formed terms attribute, taxonomyOf
    succeeds, with the empty string when the attribute is absent. -/
theorem taxonomyOf_ok (src : List (String × Json)) (h : TermsOk src) :
    ∃ s, taxonomyOf (Json.obj src) = .ok s ∧
      (jsonLookup "terms" src = none → s = "") := by
  rcases h with hnone | hnull | hempty | ⟨t0fs, rest, hsome, hh⟩
  · exact ⟨"", by unfold taxonomyOf pyGet; dsimp only; rw [hnone]; rfl, fun _ => rfl⟩
  · exact ⟨"", by unfold taxonomyOf pyGet; dsimp only; rw [hnull]; rfl,
           fun hn => Option.noConfusion (hn.symm.trans hnull)⟩
  · exact ⟨"", by unfold taxonomyOf pyGet; dsimp only; rw [hempty]; rfl,
           fun hn => Option.noConfusion (hn.symm.trans hempty)⟩
  · obtain ⟨hs, eget, hall⟩ : ∃ hs,
        pyGet (Json.obj t0fs) "hierarchy" (.arr []) = .ok (.arr hs) ∧
        ∀ e ∈ hs, HierEntryOk e := by
      rcases hh with hhn | ⟨hs, hhs, hall⟩
      · exact ⟨[], by unfold pyGet; dsimp only; rw [hhn]; rfl, fun e he => absurd he (List.not_mem_nil e)⟩
      · exact ⟨hs, by unfold pyGet; dsimp only; rw [hhs]; rfl, hall⟩
    rcases mapExceptAll hierarchyEntry (fun _ => True) hs
        (fun e he => by
          rcases hierarchyEntry_ok e (hall e he) with ⟨kv, hkv⟩
          exact ⟨kv, hkv, trivial⟩)
      with ⟨entries, hmap, _, _⟩
    have eterms : pyGet (Json.obj src) "terms" .null =
        .ok (.arr (Json.obj t0fs :: rest)) := by
      unfold pyGet; dsimp only; rw [hsome]; rfl
    refine ⟨String.intercalate "; " ((sortPairs (entries.foldl
              (fun acc p => dictInsert p.1 p.2 acc) [])).map (fun p => pyStrip p.2)),
            ?_, fun hn => Option.noConfusion (hn.symm.trans hsome)⟩
    unfold taxonomyOf
    rw [eterms, ebind_ok,
        if_pos (show jsonTruthy (Json.arr (Json.obj t0fs :: rest)) = true from rfl)]
    dsimp only
    rw [eget, ebind_ok,
        (show asArr (Json.arr hs) = .ok hs from rfl), ebind_ok,
        hmap, ebind_ok]
    rfl

/-- Helper: on an absent, falsy or well-formed multimedia attribute,
    multimediaOf succeeds, with three empty strings when the attribute is
    absent. -/
theorem multimediaOf_ok (folder : String) (src : List (String × Json))
    (h : MultimediaOk src) :
    ∃ l nm pth, multimediaOf folder (Json.obj src) = .ok (l, nm, pth) ∧
      (jsonLookup "multimedia" src = none → l = "" ∧ nm = "" ∧ pth = "") := by
  rcases h with hnone | hnull | hempty | ⟨m0fs, rest, pfs, mfs, loc, hsome, hp, hmed, hloc⟩
  · exact ⟨"", "", "",
      by unfold multimediaOf pyGet; dsimp only; rw [hnone]; rfl,
      fun _ => ⟨rfl, rfl, rfl⟩⟩
  · exact ⟨"", "", "",
      by unfold multimediaOf pyGet; dsimp only; rw [hnull]; rfl,
      fun hn => Option.noConfusion (hn.symm.trans hnull)⟩
  · exact ⟨"", "", "",
      by unfold multimediaOf pyGet; dsimp only; rw [hempty]; rfl,
      fun hn => Option.noConfusion (hn.symm.trans hempty)⟩
  · have emm : pyGet (Json.obj src) "multimedia" .null =
        .ok (.arr (Json.obj m0fs :: rest)) := by
      unfold pyGet; dsimp only; rw [hsome]; rfl
    have e1 : pyIndex (Json.obj m0fs) "processed" = .ok (.obj pfs) := by
      unfold pyIndex; dsimp only; rw [hp]
    have e2 : pyIndex (Json.obj pfs) "medium" = .ok (.obj mfs) := by
      unfold pyIndex; dsimp only; rw [hmed]
    have e3 : pyIndex (Json.obj mfs) "location" = .ok (.str loc) := by
      unfold pyIndex; dsimp only; rw [hloc]
    refine ⟨loc, slashToPipe loc, folder ++ "/" ++ slashToPipe loc, ?_,
      fun hn => Option.noConfusion (hn.symm.trans hsome)⟩
    unfold multimediaOf
    rw [emm, ebind_ok,
        if_pos (show jsonTruthy (Json.arr (Json.obj m0fs :: rest)) = true from rfl)]
    dsimp only
    rw [e1, ebind_ok, e2, ebind_ok, e3, ebind_ok,
        (show asStr (Json.str loc) = .ok loc from rfl), ebind_ok]
    rfl

/-- Helper: a record whose required attributes are present and whose
    optional attributes are each absent or well-formed normalises to a row
    whose fields degrade gracefully per absent attribute. -/
theorem process_record_parts (folder : String) (images : List String)
    (fields : List (String × Json)) (idv : Json) (src : List (String × Json))
    (hid : jsonLookup "_id" fields = some idv)
    (hsrc : jsonLookup "_source" fields = some (Json.obj src))
    (hd : ListFieldOk src "description") (hn : ListFieldOk src "name")
    (ht : TermsOk src) (hm : MultimediaOk src) :
    ∃ row, process_json_record folder images (Json.obj fields) = .ok row ∧
      GracefulRow (Json.obj fields) row := by
  obtain ⟨d, ed, hdnone⟩ := joinValues_ok src "description" hd
  obtain ⟨n, en, _⟩ := joinValues_ok src "name" hn
  obtain ⟨tax, etax, htnone⟩ := taxonomyOf_ok src ht
  obtain ⟨l, nm, pth, emm, hmnone⟩ := multimediaOf_ok folder src hm
  have e1 : pyIndex (Json.obj fields) "_id" = .ok idv := by
    unfold pyIndex; dsimp only; rw [hid]
  have e2 : pyIndex (Json.obj fields) "_source" = .ok (Json.obj src) := by
    unfold pyIndex; dsimp only; rw [hsrc]
  refine ⟨⟨idv, collapseWs (collapseWs d), collapseWs d, tax, l, nm, pth,
          images.contains pth⟩, ?_, ?_⟩
  · unfold process_json_record smgParseRecord
    rw [e1, ebind_ok, e2, ebind_ok, ed, ebind_ok, en, ebind_ok, etax, ebind_ok,
        emm, ebind_ok]
    rfl
  · intro fields2 src2 heq hsrc2
    injection heq with hf
    subst hf
    rw [hsrc] at hsrc2
    injection hsrc2 with hsrc2
    injection hsrc2 with hsrc2
    subst hsrc2
    refine ⟨rfl, fun hno => ?_, htnone, fun hno => hmnone hno⟩
    rw [hdnone hno]
    exact ⟨rfl, rfl⟩

/-- C2 amended: for every batch whose records each carry _id and a source
    dict with each optional attribute absent or well-formed, the load
    succeeds with one row per record, and for every record each absent
    optional attribute yields the empty string in the corresponding
    normalized fields of its row (names always equals the collapsed
    description because of the line 224 overwrite, so a missing description
    empties names as well); a record with a malformed field instead raises
    an uncaught exception that aborts the whole batch. -/
theorem c2_missing_fields_degrade (folder : String) (images : List String)
    (records : List Json) (h : ∀ r ∈ records, RecordOk r) :
    ∃ t, load_from_json folder images records = .ok t ∧
      t.rows.length = records.length ∧
      List.Forall₂ GracefulRow records t.rows := by
  rcases mapExceptRel (process_json_record folder images) GracefulRow records
      (fun r hr => by
        rcases h r hr with ⟨fields, idv, src, rfl, hid, hsrc, hd, hn, ht, hm⟩
        exact process_record_parts folder images fields idv src hid hsrc hd hn ht hm)
    with ⟨rows, hmap, hrel⟩
  refine ⟨{ columns := smgColumns, rows := rows }, ?_, ?_, hrel⟩
  · unfold load_from_json
    rw [hmap]
    rfl
  · exact (List.Forall₂.length_eq hrel).symm

/-- C2 witness: the amended statement at a concrete two-record batch, one
    record missing only multimedia (with description, name and terms all
    present) and one missing every optional attribute. -/
theorem c2_missing_fields_degrade_witness :
    ∃ t, load_from_json "smg_imgs" [] [recNoMultimedia, recOnlyId] = .ok t ∧
      t.rows.length = 2 ∧
      List.Forall₂ GracefulRow [recNoMultimedia, recOnlyId] t.rows := by
  apply c2_missing_fields_degrade
  intro r hr
  rcases List.mem_cons.mp hr with rfl | hr
  · refine ⟨_, .str "rA", _, rfl, rfl, rfl, ?_, ?_, ?_, Or.inl rfl⟩
    · refine Or.inr ⟨_, rfl, fun e he => ?_⟩
      rw [List.mem_singleton] at he
      subst he
      exact ⟨_, rfl, Or.inr ⟨_, rfl⟩⟩
    · refine Or.inr ⟨_, rfl, fun e he => ?_⟩
      rw [List.mem_singleton] at he
      subst he
      exact ⟨_, rfl, Or.inr ⟨_, rfl⟩⟩
    · refine Or.inr (Or.inr (Or.inr ⟨_, _, rfl, Or.inr ⟨_, rfl, fun e he => ?_⟩⟩))
      rw [List.mem_singleton] at he
      subst he
      exact ⟨_, 1, _, _, _, rfl, rfl, rfl, rfl⟩
  · rw [List.mem_singleton] at hr
    subst hr
    exact ⟨_, .str "r9", _, rfl, rfl, rfl, Or.inl rfl, Or.inl rfl, Or.inl rfl,
           Or.inl rfl⟩
